import Mathlib

/-! # Socket address formatting (`src/net/ToString.cxx`)

A shallow embedding of `LocalAddressToString`, `IsV4Mapped`, `UnmapV4` and
`ToString`, and theorems about them.

Modelling conventions:

* Memory is a list of bytes.  A `SocketAddress` is the pair the C++ class
  holds: the memory its pointer refers to, and a size.  A load at an offset
  that lies outside the memory is undefined behaviour in C++ and is the fault
  `Fault.invalidRead` here; a failing `assert` is the fault `Fault.assertion`
  (the embedding is of a build with assertions enabled).
* A `std::string` / C string is a Lean `String` whose characters are the code
  points `0..255` of its bytes (`toChar`).
* The structure layouts and constants of the system headers are those of
  Linux on a little-endian machine; the build has `HAVE_UN`, `HAVE_TCP` and
  `HAVE_IPV6`.
* `getnameinfo` is not part of the repository; `ToString` takes it as a
  parameter.
-/

deriving instance DecidableEq for Except

namespace Net

/-! ## Memory -/

/-- Ways in which a run of the embedded code stops without a value. -/
inductive Fault where
  /-- An `assert` failed. -/
  | assertion
  /-- A byte was read at this offset, which lies outside the memory. -/
  | invalidRead (offset : Nat)
  deriving DecidableEq, Repr

/-- Read the byte at offset `off`. -/
def load (mem : List UInt8) (off : Nat) : Except Fault UInt8 :=
  match mem.get? off with
  | some b => .ok b
  | none => .error (.invalidRead off)

/-- Read `n` consecutive bytes, lowest offset first. -/
def loadBytes (mem : List UInt8) (off : Nat) : Nat → Except Fault (List UInt8)
  | 0 => .ok []
  | n + 1 =>
    match load mem off with
    | .error e => .error e
    | .ok b =>
      match loadBytes mem (off + 1) n with
      | .error e => .error e
      | .ok bs => .ok (b :: bs)

/-- Overwrite the bytes of `mem` starting at `off` with `bs` (as `memcpy` into an
object that is large enough). -/
def storeBytes (mem : List UInt8) (off : Nat) (bs : List UInt8) : List UInt8 :=
  mem.take off ++ bs ++ mem.drop (off + bs.length)

/-- The character of a `std::string` that holds the byte `b`. -/
def toChar (b : UInt8) : Char := Char.ofNat b.toNat

/-! ## System constants and layouts (Linux, little-endian) -/

/-- Value of `AF_LOCAL` in `<sys/socket.h>`. -/
def AF_LOCAL : Nat := 1
/-- Value of `AF_INET` in `<sys/socket.h>`. -/
def AF_INET : Nat := 2
/-- Value of `AF_INET6` in `<sys/socket.h>`. -/
def AF_INET6 : Nat := 10

/-- Offset of `sun_path` in `struct sockaddr_un`: what the expression
`(size_t)((struct sockaddr_un *)nullptr)->sun_path` evaluates to. -/
def offsetof_sun_path : Nat := 2

/-- Offset of `sin_port` in `struct sockaddr_in` (2 bytes, network order). -/
def offsetof_sin_port : Nat := 2
/-- Offset of `sin_addr` in `struct sockaddr_in` (4 bytes). -/
def offsetof_sin_addr : Nat := 4
/-- Value of `sizeof(struct sockaddr_in)`. -/
def sizeof_sockaddr_in : Nat := 16
/-- Offset of `sin6_port` in `struct sockaddr_in6` (2 bytes, network order). -/
def offsetof_sin6_port : Nat := 2
/-- Offset of `sin6_addr` in `struct sockaddr_in6` (16 bytes). -/
def offsetof_sin6_addr : Nat := 8
/-- Value of `sizeof(struct sockaddr_in6)`. -/
def sizeof_sockaddr_in6 : Nat := 28

/-- Value of `sizeof(sa_family_t)`: the size of the family discriminator. -/
def sizeof_sa_family : Nat := 2

/-- The two bytes of a `sa_family_t` value in memory (little-endian). -/
def familyBytes (f : Nat) : List UInt8 := [UInt8.ofNat (f % 256), UInt8.ofNat (f / 256 % 256)]

/-! ## `SocketAddress` -/

/-- Modelled from the spec: the address descriptor of `SocketAddress.hxx`, which
is not among the sources: "raw byte pointer, and exact byte length".
`address` is the memory the pointer refers to, `size` the length. -/
structure SocketAddress where
  address : List UInt8
  size : Nat
  deriving DecidableEq, Repr

/-- Modelled from the spec: `SocketAddress::GetFamily()`, the family
discriminator `address->sa_family`, a 16 bit integer at offset 0. -/
def SocketAddress.GetFamily (a : SocketAddress) : Except Fault Nat := do
  let lo ← load a.address 0
  let hi ← load a.address 1
  return lo.toNat + 256 * hi.toNat

/-- Modelled from the spec: `SocketAddress::GetSize()`. -/
def SocketAddress.GetSize (a : SocketAddress) : Nat := a.size

/-- Modelled from the spec: `SocketAddress::GetAddress()`. -/
def SocketAddress.GetAddress (a : SocketAddress) : List UInt8 := a.address

/-! ## `LocalAddressToString` -/

/-- The function `LocalAddressToString` of `ToString.cxx` (lines 55-78). -/
def LocalAddressToString (s_un : List UInt8) (size : Nat) : Except Fault String := do
  let prefix_size := offsetof_sun_path
  if ¬ (size ≥ prefix_size) then throw Fault.assertion
  let mut result_length := size - prefix_size
  -- remove the trailing null terminator
  if result_length > 0 then
    if (← load s_un (prefix_size + (result_length - 1))) = 0 then
      result_length := result_length - 1
  if result_length = 0 then
    return "local"
  let result ← loadBytes s_un prefix_size result_length
  let result := String.mk (result.map toChar)
  -- replace all null bytes with '@'
  return String.mk (result.data.map (fun c => if c = '\x00' then '@' else c))

/-! ## IPv4-mapped IPv6 addresses -/

/-- The macro `IN6_IS_ADDR_V4MAPPED` of `<netinet/in.h>`, applied to the
`struct in6_addr` at offset `a` of `mem`: the first two 32 bit words are zero
and the third is `htonl(0xffff)`, tested in this order with `&&`. -/
def IN6_IS_ADDR_V4MAPPED (mem : List UInt8) (a : Nat) : Except Fault Bool := do
  if (← loadBytes mem a 4) ≠ [0, 0, 0, 0] then return false
  if (← loadBytes mem (a + 4) 4) ≠ [0, 0, 0, 0] then return false
  return (← loadBytes mem (a + 8) 4) = [0, 0, 0xff, 0xff]

/-- The function `IsV4Mapped` of `ToString.cxx` (lines 84-93). -/
def IsV4Mapped (address : SocketAddress) : Except Fault Bool := do
  if (← address.GetFamily) ≠ AF_INET6 then
    return false
  let a6 := address.GetAddress
  IN6_IS_ADDR_V4MAPPED a6 offsetof_sin6_addr

/-- The function `UnmapV4` of `ToString.cxx` (lines 98-111); the returned
address refers to the filled-in `buffer`. -/
def UnmapV4 (src : SocketAddress) : Except Fault SocketAddress := do
  if ¬ (← IsV4Mapped src) then throw Fault.assertion
  let src6 := src.GetAddress
  let buffer := List.replicate sizeof_sockaddr_in (0 : UInt8)
  let buffer := storeBytes buffer 0 (familyBytes AF_INET)
  let buffer := storeBytes buffer offsetof_sin_addr
    (← loadBytes src6 (offsetof_sin6_addr + 12) 4)
  let buffer := storeBytes buffer offsetof_sin_port
    (← loadBytes src6 offsetof_sin6_port 2)
  return { address := buffer, size := sizeof_sockaddr_in }

/-! ## `ToString` -/

/-- What a call of `getnameinfo` leaves behind: its return value and the
contents of the `host` and `serv` buffers (as C strings). -/
structure NameInfo where
  ret : Int
  host : String
  serv : String
  deriving DecidableEq, Repr

/-- The function `ToString` of `ToString.cxx` (lines 115-152).  `getnameinfo sa
salen` stands for the call `getnameinfo(sa, salen, host, sizeof(host), serv,
sizeof(serv), NI_NUMERICHOST|NI_NUMERICSERV)`. -/
def ToString (getnameinfo : List UInt8 → Nat → NameInfo) (address : SocketAddress) :
    Except Fault String := do
  if (← address.GetFamily) = AF_LOCAL then
    -- return path of UNIX domain sockets
    return ← LocalAddressToString address.GetAddress address.GetSize
  let mut address := address
  if (← IsV4Mapped address) then
    address ← UnmapV4 address
  let r := getnameinfo address.GetAddress address.GetSize
  if r.ret ≠ 0 then
    return "unknown"
  if ':' ∈ r.host.data then
    let result := "["
    let result := result.append r.host
    let result := result.append "]:"
    let result := result.append r.serv
    return result
  let result := r.host
  let result := result.push ':'
  let result := result.append r.serv
  return result

/-! ## Steps of `ToString`, named for the statements below -/

/-- Lines 125-129 of `ToString`: the address handed to `getnameinfo`, which is
the IPv4 form of an IPv4-mapped address and the address itself otherwise. -/
def Unmapped (address : SocketAddress) : Except Fault SocketAddress := do
  if (← IsV4Mapped address) then
    UnmapV4 address
  else
    return address

/-- Lines 135-151 of `ToString`: the string built from the outcome of
`getnameinfo`. -/
def present (r : NameInfo) : String :=
  if r.ret ≠ 0 then "unknown"
  else if ':' ∈ r.host.data then "[" ++ r.host ++ "]:" ++ r.serv
  else r.host ++ ":" ++ r.serv

/-! ## Vocabulary of the specification -/

/-- The path payload of a local address: the bytes of `sun_path` that lie
within the size of the descriptor. -/
def sun_path (a : SocketAddress) : List UInt8 :=
  (a.address.drop offsetof_sun_path).take (a.size - offsetof_sun_path)

/-- Specification: "If the payload ends in a single trailing terminator byte,
drop it." -/
def dropTerminator (p : List UInt8) : List UInt8 :=
  if p.getLast? = some 0 then p.dropLast else p

/-- Specification: "copy the raw payload bytes into a string and replace every
embedded zero byte with `'@'`". -/
def atSubstitute (p : List UInt8) : String :=
  String.mk (p.map (fun b => if b = 0 then '@' else toChar b))

/-- Specification of the LOCAL branch: `"local"` when nothing is left of the
payload once its terminator is dropped, otherwise the substituted payload. -/
def formatLocal (p : List UInt8) : String :=
  if dropTerminator p = [] then "local" else atSubstitute (dropTerminator p)

/-- The 12 bytes that start an IPv4-mapped IPv6 address (`::ffff:0:0/96`). -/
def v4MappedPrefix : List UInt8 := [0, 0, 0, 0, 0, 0, 0, 0, 0, 0, 0xff, 0xff]

/-- Memory image of a `struct sockaddr_in` with the given port (2 bytes,
network order) and address (4 bytes). -/
def sockaddr_in (port addr : List UInt8) : List UInt8 :=
  familyBytes AF_INET ++ port ++ addr ++ List.replicate 8 0

/-- Dotted-decimal text of an IPv4 address. -/
def dottedDecimal : List UInt8 → String
  | [] => ""
  | [b] => Nat.repr b.toNat
  | b :: bs => Nat.repr b.toNat ++ "." ++ dottedDecimal bs

/-- Decimal text of a port stored in network byte order. -/
def portDecimal (p : List UInt8) : String :=
  Nat.repr (p.foldl (fun acc b => 256 * acc + b.toNat) 0)

/-- The 16 bit groups of an IPv6 address in hexadecimal. -/
def hexGroups : List UInt8 → List String
  | hi :: lo :: rest => String.mk (Nat.toDigits 16 (256 * hi.toNat + lo.toNat)) :: hexGroups rest
  | _ => []

/-- Value of `EAI_FAMILY` in `<netdb.h>`. -/
def EAI_FAMILY : Int := -6

/-- Modelled from the spec: a numeric resolution primitive ("taking address
bytes + length, returning numeric host text and numeric service (port) text, or
an error signal"), used to evaluate `ToString` on concrete descriptors.  IPv4
hosts are dotted-decimal; IPv6 hosts are written as eight hexadecimal groups,
which is the text `inet_ntop` produces for an address without a run of zero
groups (there is no zero compression here); every other family is
`EAI_FAMILY`. -/
def sampleResolver (sa : List UInt8) (salen : Nat) : NameInfo :=
  match sa.take 2 with
  | [lo, hi] =>
    let family := lo.toNat + 256 * hi.toNat
    if family = AF_INET ∧ sizeof_sockaddr_in ≤ salen ∧ salen ≤ sa.length then
      { ret := 0
        host := dottedDecimal ((sa.drop offsetof_sin_addr).take 4)
        serv := portDecimal ((sa.drop offsetof_sin_port).take 2) }
    else if family = AF_INET6 ∧ sizeof_sockaddr_in6 ≤ salen ∧ salen ≤ sa.length then
      { ret := 0
        host := ":".intercalate (hexGroups ((sa.drop offsetof_sin6_addr).take 16))
        serv := portDecimal ((sa.drop offsetof_sin6_port).take 2) }
    else { ret := EAI_FAMILY, host := "", serv := "" }
  | _ => { ret := EAI_FAMILY, host := "", serv := "" }

/-- A resolution primitive that reports an error for every address whose
family is none of `AF_LOCAL`, `AF_INET`, `AF_INET6` (`EAI_FAMILY`: "the address
family was not recognized"). -/
def RejectsUnrecognizedFamilies (getnameinfo : List UInt8 → Nat → NameInfo) : Prop :=
  ∀ (sa : List UInt8) (salen f : Nat),
    SocketAddress.GetFamily ⟨sa, salen⟩ = .ok f →
    f ≠ AF_LOCAL → f ≠ AF_INET → f ≠ AF_INET6 → (getnameinfo sa salen).ret ≠ 0

/-- The `sin_port` field of a `struct sockaddr_in` (network byte order). -/
def sin_port (a : SocketAddress) : List UInt8 := (a.address.drop offsetof_sin_port).take 2

/-- The `sin_addr` field of a `struct sockaddr_in`. -/
def sin_addr (a : SocketAddress) : List UInt8 := (a.address.drop offsetof_sin_addr).take 4

/-- The `sin6_port` field of a `struct sockaddr_in6` (network byte order). -/
def sin6_port (a : SocketAddress) : List UInt8 := (a.address.drop offsetof_sin6_port).take 2

/-- The `sin6_addr` field of a `struct sockaddr_in6`. -/
def sin6_addr (a : SocketAddress) : List UInt8 := (a.address.drop offsetof_sin6_addr).take 16

/-! ## Basic facts -/

theorem ok_bind {α β : Type} (a : α) (f : α → Except Fault β) :
    (Except.ok a >>= f) = f a := rfl

theorem error_bind {α β : Type} (e : Fault) (f : α → Except Fault β) :
    ((Except.error e : Except Fault α) >>= f) = Except.error e := rfl

theorem pure_eq_ok {α : Type} (a : α) : (pure a : Except Fault α) = Except.ok a := rfl

theorem load_eq (mem : List UInt8) (i : Nat) (h : i < mem.length) :
    load mem i = .ok mem[i] := by
  simp [load, List.getElem?_eq_getElem h]

theorem load_invalid (mem : List UInt8) (i : Nat) (h : mem.length ≤ i) :
    load mem i = .error (.invalidRead i) := by
  simp [load, List.getElem?_eq_none h]

theorem loadBytes_eq (mem : List UInt8) (n off : Nat) (h : off + n ≤ mem.length) :
    loadBytes mem off n = .ok ((mem.drop off).take n) := by
  induction n generalizing off with
  | zero => simp [loadBytes]
  | succ n ih =>
    have h1 : off < mem.length := by omega
    rw [loadBytes, load_eq mem off h1, ih (off + 1) (by omega)]
    simp only
    rw [List.drop_eq_getElem_cons h1, List.take_succ_cons]

set_option maxRecDepth 100000 in
theorem ofNat_eq_zero_iff : ∀ n, n < 256 → (Char.ofNat n = '\x00' ↔ n = 0) := by
  decide

theorem toChar_eq_zero (b : UInt8) : toChar b = '\x00' ↔ b = 0 := by
  unfold toChar
  rw [ofNat_eq_zero_iff b.toNat (UInt8.toNat_lt_size b)]
  constructor
  · intro h
    exact UInt8.toNat.inj (by simpa using h)
  · intro h
    simp [h]

theorem replace_map_toChar (bs : List UInt8) :
    List.map (fun c => if c = '\x00' then '@' else c) (List.map toChar bs)
      = bs.map (fun b => if b = 0 then '@' else toChar b) := by
  simp only [List.map_map]
  apply List.map_congr_left
  intro b _
  by_cases h : b = 0
  · simp [h, (toChar_eq_zero 0).2 rfl]
  · have : ¬ toChar b = '\x00' := fun hc => h ((toChar_eq_zero b).1 hc)
    simp [h, this]

/-! ## The LOCAL branch -/

theorem LocalAddressToString_eq (s_un : List UInt8) (size : Nat)
    (h1 : 2 ≤ size) (h2 : size ≤ s_un.length) :
    LocalAddressToString s_un size = .ok (formatLocal ((s_un.drop 2).take (size - 2))) := by
  unfold LocalAddressToString
  simp only [offsetof_sun_path, ge_iff_le, h1, not_true_eq_false, ↓reduceIte, pure_bind,
    gt_iff_lt, tsub_pos_iff_lt]
  have hlen : ((s_un.drop 2).take (size - 2)).length = size - 2 := by
    simp; omega
  rw [loadBytes_eq s_un (size - 2) 2 (by omega)]
  by_cases hs : 2 < size
  · have hi : 2 + (size - 2 - 1) < s_un.length := by omega
    have hlast : ((s_un.drop 2).take (size - 2)).getLast? = some s_un[2 + (size - 2 - 1)] := by
      rw [List.getLast?_eq_getElem?, hlen, List.getElem?_take_of_lt (by omega),
        List.getElem?_drop, List.getElem?_eq_getElem hi]
    have hdl : ((s_un.drop 2).take (size - 2)).dropLast
        = (s_un.drop 2).take (size - 2 - 1) := by
      rw [List.dropLast_eq_take, hlen, List.take_take, Nat.min_eq_left (by omega)]
    rw [if_pos hs, load_eq _ _ hi, loadBytes_eq s_un (size - 2 - 1) 2 (by omega)]
    simp only [formatLocal, dropTerminator, hlast, Option.some.injEq]
    by_cases hz : s_un[2 + (size - 2 - 1)] = 0
    · simp only [hz, ↓reduceIte, hdl, ok_bind, pure_eq_ok]
      have : (List.take (size - 2 - 1) (List.drop 2 s_un) = []) ↔ size - 2 - 1 = 0 := by
        rw [← List.length_eq_zero]; simp; omega
      by_cases h0 : size - 2 - 1 = 0
      · rw [if_pos h0, if_pos (this.2 h0)]
      · rw [if_neg h0, if_neg (fun h => h0 (this.1 h)), replace_map_toChar]
        rfl
    · have : ¬ (List.take (size - 2) (List.drop 2 s_un) = []) := by
        rw [← List.length_eq_zero, hlen]; omega
      simp only [hz, ↓reduceIte, ok_bind, pure_eq_ok, this]
      rw [if_neg (by omega), replace_map_toChar]
      rfl
  · have : size - 2 = 0 := by omega
    simp [hs, this, formatLocal, dropTerminator]
    rfl

theorem ToString_of_local (getnameinfo : List UInt8 → Nat → NameInfo) (a : SocketAddress)
    (hfam : a.GetFamily = .ok AF_LOCAL) :
    ToString getnameinfo a = LocalAddressToString a.address a.size := by
  unfold ToString
  rw [hfam]
  simp only [ok_bind, ↓reduceIte, SocketAddress.GetAddress, SocketAddress.GetSize]
  cases LocalAddressToString a.address a.size <;> rfl

theorem ToString_local_eq (getnameinfo : List UInt8 → Nat → NameInfo) (a : SocketAddress)
    (hfam : a.GetFamily = .ok AF_LOCAL) (hsize : offsetof_sun_path ≤ a.size)
    (hmem : a.size ≤ a.address.length) :
    ToString getnameinfo a = .ok (formatLocal (sun_path a)) := by
  rw [ToString_of_local getnameinfo a hfam]
  exact LocalAddressToString_eq a.address a.size hsize hmem

/-- C1. A local address whose size covers the `sun_path` offset is formatted as
`"local"` when nothing is left of the path payload once one trailing zero byte
is dropped, and otherwise as the remaining payload bytes, in order and one
character per byte, with every zero byte replaced by `'@'` and every other byte
kept. -/
theorem ToString_local_format (getnameinfo : List UInt8 → Nat → NameInfo) (a : SocketAddress)
    (hfam : a.GetFamily = .ok AF_LOCAL) (hsize : offsetof_sun_path ≤ a.size)
    (hmem : a.size ≤ a.address.length) :
    ToString getnameinfo a
      = .ok (if dropTerminator (sun_path a) = [] then "local"
             else String.mk ((dropTerminator (sun_path a)).map
                    (fun b => if b = 0 then '@' else toChar b))) :=
  ToString_local_eq getnameinfo a hfam hsize hmem

/-- Instance of C1 at the payload `"abc\0def"`, which is formatted as
`"abc@def"`. -/
theorem ToString_local_format_witness :
    (SocketAddress.GetFamily ⟨[1, 0, 97, 98, 99, 0, 100, 101, 102], 9⟩ = .ok AF_LOCAL
      ∧ offsetof_sun_path ≤ 9 ∧ 9 ≤ [1, 0, 97, 98, 99, 0, 100, 101, 102].length)
    ∧ sun_path ⟨[1, 0, 97, 98, 99, 0, 100, 101, 102], 9⟩ = [97, 98, 99, 0, 100, 101, 102]
    ∧ ToString sampleResolver ⟨[1, 0, 97, 98, 99, 0, 100, 101, 102], 9⟩ = .ok "abc@def" :=
  ⟨by decide, by decide,
    (ToString_local_format sampleResolver ⟨[1, 0, 97, 98, 99, 0, 100, 101, 102], 9⟩
      (by decide) (by decide) (by decide)).trans (by decide)⟩

/-- C2. A local address whose path payload is empty, or is one zero byte, is
formatted as `"local"`. -/
theorem ToString_local_empty (getnameinfo : List UInt8 → Nat → NameInfo) (a : SocketAddress)
    (hfam : a.GetFamily = .ok AF_LOCAL) (hsize : offsetof_sun_path ≤ a.size)
    (hmem : a.size ≤ a.address.length) (hp : sun_path a = [] ∨ sun_path a = [0]) :
    ToString getnameinfo a = .ok "local" := by
  rw [ToString_local_eq getnameinfo a hfam hsize hmem]
  rcases hp with hp | hp <;> rw [hp] <;> rfl

/-- Instances of C2: the payload of size zero and the payload `"\0"`. -/
theorem ToString_local_empty_witness :
    (sun_path ⟨[1, 0], 2⟩ = [] ∧ ToString sampleResolver ⟨[1, 0], 2⟩ = .ok "local")
    ∧ (sun_path ⟨[1, 0, 0], 3⟩ = [0] ∧ ToString sampleResolver ⟨[1, 0, 0], 3⟩ = .ok "local") :=
  ⟨⟨by decide, ToString_local_empty sampleResolver ⟨[1, 0], 2⟩ (by decide) (by decide)
      (by decide) (Or.inl (by decide))⟩,
   ⟨by decide, ToString_local_empty sampleResolver ⟨[1, 0, 0], 3⟩ (by decide) (by decide)
      (by decide) (Or.inr (by decide))⟩⟩

theorem formatLocal_append_terminator (p : List UInt8) (hnz : p.getLast? ≠ some 0) :
    formatLocal (p ++ [0]) = formatLocal p := by
  have h1 : dropTerminator (p ++ [0]) = p := by
    simp [dropTerminator]
  have h2 : dropTerminator p = p := by
    simp only [dropTerminator, if_neg hnz]
  simp only [formatLocal, h1, h2]

/-- C3. When a path payload `p` does not end in a zero byte, the local address
with payload `p` followed by one zero byte is formatted exactly as the local
address with payload `p`: the terminator is dropped and leaves no `'@'`. -/
theorem ToString_local_terminator_stripped (getnameinfo : List UInt8 → Nat → NameInfo)
    (a b : SocketAddress)
    (hfa : a.GetFamily = .ok AF_LOCAL) (hsa : offsetof_sun_path ≤ a.size)
    (hma : a.size ≤ a.address.length)
    (hfb : b.GetFamily = .ok AF_LOCAL) (hsb : offsetof_sun_path ≤ b.size)
    (hmb : b.size ≤ b.address.length)
    (hnz : (sun_path a).getLast? ≠ some 0) (hp : sun_path b = sun_path a ++ [0]) :
    ToString getnameinfo b = ToString getnameinfo a := by
  rw [ToString_local_eq getnameinfo a hfa hsa hma, ToString_local_eq getnameinfo b hfb hsb hmb,
    hp, formatLocal_append_terminator _ hnz]

/-- Instance of C3: the payloads `"abc"` and `"abc\0"` are both formatted as
`"abc"`. -/
theorem ToString_local_terminator_stripped_witness :
    sun_path ⟨[1, 0, 97, 98, 99, 0], 6⟩ = sun_path ⟨[1, 0, 97, 98, 99], 5⟩ ++ [0]
    ∧ ToString sampleResolver ⟨[1, 0, 97, 98, 99, 0], 6⟩
        = ToString sampleResolver ⟨[1, 0, 97, 98, 99], 5⟩
    ∧ ToString sampleResolver ⟨[1, 0, 97, 98, 99, 0], 6⟩ = .ok "abc" :=
  ⟨by decide,
   ToString_local_terminator_stripped sampleResolver ⟨[1, 0, 97, 98, 99], 5⟩
     ⟨[1, 0, 97, 98, 99, 0], 6⟩ (by decide) (by decide) (by decide) (by decide) (by decide)
     (by decide) (by decide) (by decide),
   by decide⟩

/-- C9 does not hold as stated: the local address of size 1, which is smaller
than the offset of `sun_path`, is not formatted as `"local"`; the run stops at
`assert(size >= prefix_size)`. -/
theorem ToString_local_short_not_clamped :
    SocketAddress.GetFamily ⟨[1, 0], 1⟩ = .ok AF_LOCAL
    ∧ 1 < offsetof_sun_path
    ∧ ToString sampleResolver ⟨[1, 0], 1⟩ ≠ .ok "local"
    ∧ ToString sampleResolver ⟨[1, 0], 1⟩ = .error Fault.assertion := by
  decide

/-- C9, amended. For a local address whose size is smaller than the offset of
`sun_path`, the length is not clamped: `assert(size >= prefix_size)` fails and
no string is returned. -/
theorem ToString_local_short_asserts (getnameinfo : List UInt8 → Nat → NameInfo)
    (a : SocketAddress) (hfam : a.GetFamily = .ok AF_LOCAL)
    (hsize : a.size < offsetof_sun_path) :
    ToString getnameinfo a = .error Fault.assertion := by
  rw [ToString_of_local getnameinfo a hfam]
  unfold LocalAddressToString
  have : ¬ a.size ≥ offsetof_sun_path := by omega
  simp only [this, not_false_eq_true, ↓reduceIte]
  rfl

/-- Instance of the amended C9 at the local address of size 0. -/
theorem ToString_local_short_asserts_witness :
    SocketAddress.GetFamily ⟨[1, 0, 47, 120], 0⟩ = .ok AF_LOCAL
    ∧ 0 < offsetof_sun_path
    ∧ ToString sampleResolver ⟨[1, 0, 47, 120], 0⟩ = .error Fault.assertion :=
  ⟨by decide, by decide,
   ToString_local_short_asserts sampleResolver ⟨[1, 0, 47, 120], 0⟩ (by decide) (by decide)⟩


theorem GetFamily_eq (a : SocketAddress) (h : 2 ≤ a.address.length) :
    a.GetFamily = .ok (a.address[0].toNat + 256 * a.address[1].toNat) := by
  unfold SocketAddress.GetFamily
  rw [load_eq _ 0 (by omega), load_eq _ 1 (by omega)]
  rfl

theorem take_twelve (l : List UInt8) :
    l.take 12 = l.take 4 ++ ((l.drop 4).take 4 ++ (l.drop 8).take 4) := by
  have h1 : l.take 12 = l.take 4 ++ (l.drop 4).take 8 := List.take_add l 4 8
  have h2 : (l.drop 4).take 8 = (l.drop 4).take 4 ++ ((l.drop 4).drop 4).take 4 :=
    List.take_add (l.drop 4) 4 4
  rw [h1, h2, List.drop_drop]

theorem IN6_IS_ADDR_V4MAPPED_eq (mem : List UInt8) (a : Nat) (h : a + 12 ≤ mem.length) :
    IN6_IS_ADDR_V4MAPPED mem a = .ok (decide ((mem.drop a).take 12 = v4MappedPrefix)) := by
  unfold IN6_IS_ADDR_V4MAPPED
  rw [loadBytes_eq mem 4 a (by omega), loadBytes_eq mem 4 (a + 4) (by omega),
    loadBytes_eq mem 4 (a + 8) (by omega)]
  simp only [ok_bind, pure_eq_ok]
  have e := take_twelve (mem.drop a)
  rw [List.drop_drop, List.drop_drop] at e
  have hp : v4MappedPrefix = [0, 0, 0, 0] ++ ([0, 0, 0, 0] ++ [0, 0, 0xff, 0xff]) := rfl
  have l0 : (List.take 4 (List.drop a mem)).length = 4 := by simp; omega
  have l1 : (List.take 4 (List.drop (a + 4) mem)).length = 4 := by simp; omega
  rw [e, hp]
  by_cases h0 : List.take 4 (List.drop a mem) = [0, 0, 0, 0]
  · by_cases h1 : List.take 4 (List.drop (a + 4) mem) = [0, 0, 0, 0]
    · simp [h0, h1]
    · have : ¬ (List.take 4 (List.drop (a + 4) mem) ++ List.take 4 (List.drop (a + 8) mem)
          = [0, 0, 0, 0] ++ [0, 0, 0xff, 0xff]) := fun hc =>
        h1 (List.append_inj_left hc (by rw [l1]; rfl))
      simp only [h0, h1, ne_eq, not_true_eq_false, not_false_eq_true, ↓reduceIte,
        List.append_cancel_left_eq, this, decide_False]
  · have : ¬ (List.take 4 (List.drop a mem) ++ (List.take 4 (List.drop (a + 4) mem)
          ++ List.take 4 (List.drop (a + 8) mem))
          = [0, 0, 0, 0] ++ ([0, 0, 0, 0] ++ [0, 0, 0xff, 0xff])) := fun hc =>
        h0 (List.append_inj_left hc (by rw [l0]; rfl))
    simp only [h0, ne_eq, not_false_eq_true, ↓reduceIte, this, decide_False]

theorem IsV4Mapped_of_family_ne (a : SocketAddress) (f : Nat) (hfam : a.GetFamily = .ok f)
    (hne : f ≠ AF_INET6) : IsV4Mapped a = .ok false := by
  unfold IsV4Mapped
  rw [hfam]
  simp only [ok_bind, ne_eq, hne, not_false_eq_true, ↓reduceIte]
  rfl

theorem IsV4Mapped_of_inet6 (a : SocketAddress) (hfam : a.GetFamily = .ok AF_INET6)
    (hlen : offsetof_sin6_addr + 12 ≤ a.address.length) :
    IsV4Mapped a
      = .ok (decide ((a.address.drop offsetof_sin6_addr).take 12 = v4MappedPrefix)) := by
  unfold IsV4Mapped
  rw [hfam]
  simp only [ok_bind, ne_eq, not_true_eq_false, ↓reduceIte, SocketAddress.GetAddress]
  exact IN6_IS_ADDR_V4MAPPED_eq a.address offsetof_sin6_addr hlen

theorem storeBytes_sockaddr_in (P A : List UInt8) (hP : P.length = 2) (hA : A.length = 4) :
    storeBytes (storeBytes (storeBytes (List.replicate sizeof_sockaddr_in 0) 0
      (familyBytes AF_INET)) offsetof_sin_addr A) offsetof_sin_port P = sockaddr_in P A := by
  obtain ⟨p0, p1, rfl⟩ := List.length_eq_two.1 hP
  rcases A with _ | ⟨a0, _ | ⟨a1, _ | ⟨a2, _ | ⟨a3, _ | ⟨a4, A⟩⟩⟩⟩⟩ <;> simp at hA
  rfl

theorem UnmapV4_eq (a : SocketAddress) (hm : IsV4Mapped a = .ok true)
    (hlen : offsetof_sin6_addr + 16 ≤ a.address.length) :
    UnmapV4 a = .ok ⟨sockaddr_in ((a.address.drop offsetof_sin6_port).take 2)
      ((a.address.drop (offsetof_sin6_addr + 12)).take 4), sizeof_sockaddr_in⟩ := by
  have hlen2 : 24 ≤ a.address.length := hlen
  unfold UnmapV4
  rw [hm]
  simp only [ok_bind, SocketAddress.GetAddress]
  rw [loadBytes_eq a.address 4 (offsetof_sin6_addr + 12) (by simp only [offsetof_sin6_addr]; omega),
    loadBytes_eq a.address 2 offsetof_sin6_port (by simp only [offsetof_sin6_port]; omega)]
  simp only [ok_bind, Bool.not_true, Bool.false_eq_true, ↓reduceIte, pure_eq_ok]
  rw [storeBytes_sockaddr_in]
  · rfl
  · simp [offsetof_sin6_port]; omega
  · simp [offsetof_sin6_addr]; omega

theorem Unmapped_of_not_mapped (a : SocketAddress) (hm : IsV4Mapped a = .ok false) :
    Unmapped a = .ok a := by
  unfold Unmapped
  rw [hm]
  rfl

theorem Unmapped_of_mapped (a : SocketAddress) (hm : IsV4Mapped a = .ok true) :
    Unmapped a = UnmapV4 a := by
  unfold Unmapped
  rw [hm]
  rfl

theorem ToString_of_unmapped (getnameinfo : List UInt8 → Nat → NameInfo)
    (a b : SocketAddress) (f : Nat) (hfam : a.GetFamily = .ok f) (hne : f ≠ AF_LOCAL)
    (hu : Unmapped a = .ok b) :
    ToString getnameinfo a = .ok (present (getnameinfo b.address b.size)) := by
  have tail : ∀ r : NameInfo,
      (if r.ret ≠ 0 then (pure "unknown" : Except Fault String)
        else do
          pure PUnit.unit
          if ':' ∈ r.host.data then
              pure ((("[".append r.host).append "]:").append r.serv)
            else do
              pure PUnit.unit
              pure ((r.host.push ':').append r.serv)) = .ok (present r) := by
    intro r
    unfold present
    by_cases h1 : r.ret ≠ 0
    · rw [if_pos h1, if_pos h1]; rfl
    · rw [if_neg h1, if_neg h1]
      by_cases h2 : ':' ∈ r.host.data
      · rw [if_pos h2, if_pos h2]; rfl
      · rw [if_neg h2, if_neg h2]; rfl
  unfold ToString
  rw [hfam]
  simp only [ok_bind, hne, ↓reduceIte, SocketAddress.GetAddress, SocketAddress.GetSize,
    pure_bind]
  unfold Unmapped at hu
  cases hm : IsV4Mapped a with
  | error e =>
    rw [hm] at hu
    exact absurd hu (by simp [bind, Except.bind])
  | ok m =>
    rw [hm] at hu
    cases m with
    | false =>
      have hb : a = b := Except.ok.inj hu
      subst hb
      simp only [ok_bind, Bool.false_eq_true, ↓reduceIte]
      exact tail _
    | true =>
      have hb : UnmapV4 a = .ok b := hu
      simp only [ok_bind, ↓reduceIte, hb]
      exact tail _

theorem sin6_addr_take (a : SocketAddress) :
    (sin6_addr a).take 12 = (a.address.drop offsetof_sin6_addr).take 12 := by
  simp [sin6_addr, List.take_take]

theorem sin6_addr_drop (a : SocketAddress) :
    (sin6_addr a).drop 12 = (a.address.drop (offsetof_sin6_addr + 12)).take 4 := by
  simp [sin6_addr, List.drop_take, List.drop_drop, Nat.add_comm]

theorem digitChar_plain : ∀ m, m < 10 →
    Nat.digitChar m ≠ ':' ∧ Nat.digitChar m ≠ '[' ∧ Nat.digitChar m ≠ ']' := by
  decide

theorem toDigitsCore_plain (fuel : Nat) : ∀ (n : Nat) (acc : List Char),
    (∀ c ∈ acc, c ≠ ':' ∧ c ≠ '[' ∧ c ≠ ']') →
    ∀ c ∈ Nat.toDigitsCore 10 fuel n acc, c ≠ ':' ∧ c ≠ '[' ∧ c ≠ ']' := by
  induction fuel with
  | zero => intro n acc h c hc; exact h c (by simpa [Nat.toDigitsCore] using hc)
  | succ fuel ih =>
    intro n acc h c hc
    have hd := digitChar_plain (n % 10) (Nat.mod_lt n (by decide))
    have hacc : ∀ c ∈ Nat.digitChar (n % 10) :: acc, c ≠ ':' ∧ c ≠ '[' ∧ c ≠ ']' := by
      intro c hc
      rcases List.mem_cons.1 hc with rfl | hc
      · exact hd
      · exact h c hc
    simp only [Nat.toDigitsCore] at hc
    split at hc
    · exact hacc c hc
    · exact ih _ _ hacc c hc

theorem repr_plain (n : Nat) : ∀ c ∈ (Nat.repr n).data, c ≠ ':' ∧ c ≠ '[' ∧ c ≠ ']' := by
  intro c hc
  exact toDigitsCore_plain (n + 1) n [] (by simp) c (by simpa [Nat.repr, Nat.toDigits] using hc)

theorem dottedDecimal_plain (A : List UInt8) :
    ∀ c ∈ (dottedDecimal A).data, c ≠ ':' ∧ c ≠ '[' ∧ c ≠ ']' := by
  induction A with
  | nil => simp [dottedDecimal]
  | cons b bs ih =>
    cases bs with
    | nil => simpa [dottedDecimal] using repr_plain b.toNat
    | cons c cs =>
      intro x hx
      simp only [dottedDecimal, String.data_append, List.mem_append] at hx
      rcases hx with (hx | hx) | hx
      · exact repr_plain _ x hx
      · have : x = '.' := by simpa using hx
        subst this
        decide
      · exact ih x hx

theorem inet4_text_no_bracket (A P : List UInt8) :
    '[' ∉ (dottedDecimal A ++ ":" ++ portDecimal P).data
    ∧ ']' ∉ (dottedDecimal A ++ ":" ++ portDecimal P).data := by
  have hA := dottedDecimal_plain A
  have hP := repr_plain (P.foldl (fun acc b => 256 * acc + b.toNat) 0)
  simp only [String.data_append, List.mem_append, portDecimal, not_or]
  refine ⟨⟨⟨fun h => (hA _ h).2.1 rfl, by decide⟩, fun h => (hP _ h).2.1 rfl⟩,
    ⟨⟨fun h => (hA _ h).2.2 rfl, by decide⟩, fun h => (hP _ h).2.2 rfl⟩⟩

theorem dottedDecimal_no_colon (A : List UInt8) : ':' ∉ (dottedDecimal A).data :=
  fun h => (dottedDecimal_plain A _ h).1 rfl

theorem present_inet4 (A P : List UInt8) :
    present ⟨0, dottedDecimal A, portDecimal P⟩ = dottedDecimal A ++ ":" ++ portDecimal P := by
  simp only [present, ne_eq, not_true_eq_false, ↓reduceIte, dottedDecimal_no_colon A]

theorem ToString_of_inet4 (getnameinfo : List UInt8 → Nat → NameInfo) (a : SocketAddress)
    (hfam : a.GetFamily = .ok AF_INET) :
    ToString getnameinfo a = .ok (present (getnameinfo a.address a.size)) :=
  ToString_of_unmapped getnameinfo a a AF_INET hfam (by decide)
    (Unmapped_of_not_mapped a (IsV4Mapped_of_family_ne a AF_INET hfam (by decide)))

theorem GetFamily_sockaddr_in (P A : List UInt8) (n : Nat) :
    SocketAddress.GetFamily ⟨sockaddr_in P A, n⟩ = .ok AF_INET := rfl

theorem Unmapped_v4mapped (a : SocketAddress) (hfam : a.GetFamily = .ok AF_INET6)
    (hlen : offsetof_sin6_addr + 16 ≤ a.address.length)
    (hmapped : (a.address.drop offsetof_sin6_addr).take 12 = v4MappedPrefix) :
    Unmapped a = .ok ⟨sockaddr_in (sin6_port a) ((sin6_addr a).drop 12), sizeof_sockaddr_in⟩ := by
  have hm : IsV4Mapped a = .ok true := by
    rw [IsV4Mapped_of_inet6 a hfam (by omega), hmapped]
    rfl
  rw [Unmapped_of_mapped a hm, UnmapV4_eq a hm hlen, sin6_addr_drop]
  rfl

/-- C4. An IPv6 address whose `sin6_addr` starts with the IPv4-mapped prefix is
formatted exactly as the IPv4 address built from its last four address bytes
and its port; when the resolution primitive renders that IPv4 address as
dotted-decimal host `A` and decimal port `P`, the result is `A:P`, without
brackets (neither `'['` nor `']'` occurs in it). -/
theorem ToString_v4mapped (getnameinfo : List UInt8 → Nat → NameInfo) (a : SocketAddress)
    (hfam : a.GetFamily = .ok AF_INET6)
    (hlen : offsetof_sin6_addr + 16 ≤ a.address.length)
    (hmapped : (sin6_addr a).take 12 = v4MappedPrefix) :
    ToString getnameinfo a
      = ToString getnameinfo
          ⟨sockaddr_in (sin6_port a) ((sin6_addr a).drop 12), sizeof_sockaddr_in⟩
    ∧ (getnameinfo (sockaddr_in (sin6_port a) ((sin6_addr a).drop 12)) sizeof_sockaddr_in
          = ⟨0, dottedDecimal ((sin6_addr a).drop 12), portDecimal (sin6_port a)⟩ →
        ToString getnameinfo a
          = .ok (dottedDecimal ((sin6_addr a).drop 12) ++ ":" ++ portDecimal (sin6_port a))
        ∧ '[' ∉ (dottedDecimal ((sin6_addr a).drop 12) ++ ":" ++ portDecimal (sin6_port a)).data
        ∧ ']' ∉ (dottedDecimal ((sin6_addr a).drop 12) ++ ":" ++ portDecimal (sin6_port a)).data)
    := by
  rw [sin6_addr_take] at hmapped
  have h6 := ToString_of_unmapped getnameinfo a _ AF_INET6 hfam (by decide)
    (Unmapped_v4mapped a hfam hlen hmapped)
  have h4 := ToString_of_inet4 getnameinfo
    ⟨sockaddr_in (sin6_port a) ((sin6_addr a).drop 12), sizeof_sockaddr_in⟩
    (GetFamily_sockaddr_in _ _ _)
  refine ⟨h6.trans h4.symm, fun hres => ⟨?_, inet4_text_no_bracket _ _⟩⟩
  rw [h6, hres, present_inet4]

/-- Instance of C4: `[::ffff:127.0.0.1]:6600` is formatted as `127.0.0.1:6600`. -/
theorem ToString_v4mapped_witness :
    sin6_addr ⟨[10, 0, 0x19, 0xc8, 0, 0, 0, 0, 0, 0, 0, 0, 0, 0, 0, 0, 0, 0, 0xff, 0xff,
        127, 0, 0, 1, 0, 0, 0, 0], 28⟩
      = v4MappedPrefix ++ [127, 0, 0, 1]
    ∧ ToString sampleResolver ⟨[10, 0, 0x19, 0xc8, 0, 0, 0, 0, 0, 0, 0, 0, 0, 0, 0, 0, 0, 0,
        0xff, 0xff, 127, 0, 0, 1, 0, 0, 0, 0], 28⟩
      = ToString sampleResolver ⟨sockaddr_in [0x19, 0xc8] [127, 0, 0, 1], 16⟩
    ∧ ToString sampleResolver ⟨[10, 0, 0x19, 0xc8, 0, 0, 0, 0, 0, 0, 0, 0, 0, 0, 0, 0, 0, 0,
        0xff, 0xff, 127, 0, 0, 1, 0, 0, 0, 0], 28⟩
      = .ok "127.0.0.1:6600" :=
  ⟨by decide,
   (ToString_v4mapped sampleResolver ⟨[10, 0, 0x19, 0xc8, 0, 0, 0, 0, 0, 0, 0, 0, 0, 0, 0, 0,
      0, 0, 0xff, 0xff, 127, 0, 0, 1, 0, 0, 0, 0], 28⟩ (by decide) (by decide) (by decide)).1,
   ((ToString_v4mapped sampleResolver ⟨[10, 0, 0x19, 0xc8, 0, 0, 0, 0, 0, 0, 0, 0, 0, 0, 0, 0,
      0, 0, 0xff, 0xff, 127, 0, 0, 1, 0, 0, 0, 0], 28⟩ (by decide) (by decide) (by decide)).2
      (by decide)).1.trans (by decide)⟩

/-- C5. An IPv4 address that the resolution primitive renders as dotted-decimal
host `A` and decimal port `P` is formatted as exactly `A:P`, in which neither
`'['` nor `']'` occurs. -/
theorem ToString_inet4 (getnameinfo : List UInt8 → Nat → NameInfo) (a : SocketAddress)
    (hfam : a.GetFamily = .ok AF_INET)
    (hres : getnameinfo a.address a.size
      = ⟨0, dottedDecimal (sin_addr a), portDecimal (sin_port a)⟩) :
    ToString getnameinfo a
      = .ok (dottedDecimal (sin_addr a) ++ ":" ++ portDecimal (sin_port a))
    ∧ '[' ∉ (dottedDecimal (sin_addr a) ++ ":" ++ portDecimal (sin_port a)).data
    ∧ ']' ∉ (dottedDecimal (sin_addr a) ++ ":" ++ portDecimal (sin_port a)).data := by
  refine ⟨?_, inet4_text_no_bracket _ _⟩
  rw [ToString_of_inet4 getnameinfo a hfam, hres, present_inet4]

/-- Instance of C5: address 192.168.1.20, port 8000. -/
theorem ToString_inet4_witness :
    (sin_addr ⟨[2, 0, 0x1f, 0x40, 192, 168, 1, 20, 0, 0, 0, 0, 0, 0, 0, 0], 16⟩
        = [192, 168, 1, 20]
      ∧ sin_port ⟨[2, 0, 0x1f, 0x40, 192, 168, 1, 20, 0, 0, 0, 0, 0, 0, 0, 0], 16⟩
        = [0x1f, 0x40])
    ∧ ToString sampleResolver ⟨[2, 0, 0x1f, 0x40, 192, 168, 1, 20, 0, 0, 0, 0, 0, 0, 0, 0], 16⟩
      = .ok "192.168.1.20:8000" :=
  ⟨by decide,
   (ToString_inet4 sampleResolver
      ⟨[2, 0, 0x1f, 0x40, 192, 168, 1, 20, 0, 0, 0, 0, 0, 0, 0, 0], 16⟩ (by decide)
      (by decide)).1.trans (by decide)⟩

/-- C6. An IPv6 address that is not IPv4-mapped and that the resolution
primitive renders as numeric host `h` (a text with a colon, as every numeric
IPv6 host) and port `s` is formatted as exactly `[h]:s`. -/
theorem ToString_inet6 (getnameinfo : List UInt8 → Nat → NameInfo) (a : SocketAddress)
    (h s : String)
    (hfam : a.GetFamily = .ok AF_INET6)
    (hlen : offsetof_sin6_addr + 16 ≤ a.address.length)
    (hnot : (sin6_addr a).take 12 ≠ v4MappedPrefix)
    (hres : getnameinfo a.address a.size = ⟨0, h, s⟩)
    (hcolon : ':' ∈ h.data) :
    ToString getnameinfo a = .ok ("[" ++ h ++ "]:" ++ s) := by
  rw [sin6_addr_take] at hnot
  have hm : IsV4Mapped a = .ok false := by
    rw [IsV4Mapped_of_inet6 a hfam (by omega)]
    simp only [hnot, decide_False]
  rw [ToString_of_unmapped getnameinfo a a AF_INET6 hfam (by decide)
    (Unmapped_of_not_mapped a hm), hres]
  simp only [present, ne_eq, not_true_eq_false, ↓reduceIte, hcolon]

/-- Instance of C6: the address `2001:db8:1:2:3:4:5:6`, port 6600. -/
theorem ToString_inet6_witness :
    sin6_addr ⟨[10, 0, 0x19, 0xc8, 0, 0, 0, 0, 0x20, 0x01, 0x0d, 0xb8, 0, 1, 0, 2, 0, 3, 0, 4,
        0, 5, 0, 6, 0, 0, 0, 0], 28⟩
      = [0x20, 0x01, 0x0d, 0xb8, 0, 1, 0, 2, 0, 3, 0, 4, 0, 5, 0, 6]
    ∧ ToString sampleResolver ⟨[10, 0, 0x19, 0xc8, 0, 0, 0, 0, 0x20, 0x01, 0x0d, 0xb8, 0, 1, 0, 2,
        0, 3, 0, 4, 0, 5, 0, 6, 0, 0, 0, 0], 28⟩
      = .ok "[2001:db8:1:2:3:4:5:6]:6600" :=
  ⟨by decide,
   ToString_inet6 sampleResolver ⟨[10, 0, 0x19, 0xc8, 0, 0, 0, 0, 0x20, 0x01, 0x0d, 0xb8, 0, 1,
      0, 2, 0, 3, 0, 4, 0, 5, 0, 6, 0, 0, 0, 0], 28⟩ "2001:db8:1:2:3:4:5:6" "6600" (by decide)
      (by decide) (by decide) (by decide) (by decide)⟩

theorem present_ne_unknown (r : NameInfo) (h : r.ret = 0) : present r ≠ "unknown" := by
  have hc : ':' ∈ (present r).data := by
    by_cases h2 : ':' ∈ r.host.data
    · simp [present, h, h2]
    · simp [present, h, h2]
  intro he
  rw [he] at hc
  exact absurd hc (by decide)

/-- C7. For an address that is not local, let `b` be the address handed to the
resolution primitive. When the primitive reports a non-zero status the result
is `"unknown"`, whatever host and service text it left; when it reports zero
the result is `[host]:serv` or `host:serv`, built from its texts, and is not
`"unknown"`. -/
theorem ToString_resolution_status (getnameinfo : List UInt8 → Nat → NameInfo)
    (a b : SocketAddress) (f : Nat)
    (hfam : a.GetFamily = .ok f) (hne : f ≠ AF_LOCAL) (hu : Unmapped a = .ok b) :
    ((getnameinfo b.address b.size).ret ≠ 0 → ToString getnameinfo a = .ok "unknown")
    ∧ ((getnameinfo b.address b.size).ret = 0 →
        ToString getnameinfo a
          = .ok (if ':' ∈ (getnameinfo b.address b.size).host.data
                 then "[" ++ (getnameinfo b.address b.size).host ++ "]:"
                        ++ (getnameinfo b.address b.size).serv
                 else (getnameinfo b.address b.size).host ++ ":"
                        ++ (getnameinfo b.address b.size).serv)
        ∧ ToString getnameinfo a ≠ .ok "unknown") := by
  rw [ToString_of_unmapped getnameinfo a b f hfam hne hu]
  refine ⟨fun h => ?_, fun h => ⟨?_, ?_⟩⟩
  · simp only [present, h, ne_eq, not_false_eq_true, ↓reduceIte]
  · simp only [present, h, ne_eq, not_true_eq_false, ↓reduceIte]
  · intro he
    exact present_ne_unknown _ h (Except.ok.inj he)

/-- Instances of C7: a primitive that fails with partial text left behind, and
a primitive that succeeds. -/
theorem ToString_resolution_status_witness :
    ToString (fun _ _ => ⟨-2, "192.168", "80"⟩)
        ⟨[2, 0, 0x1f, 0x40, 192, 168, 1, 20, 0, 0, 0, 0, 0, 0, 0, 0], 16⟩
      = .ok "unknown"
    ∧ ToString sampleResolver ⟨[2, 0, 0x1f, 0x40, 192, 168, 1, 20, 0, 0, 0, 0, 0, 0, 0, 0], 16⟩
      = .ok "192.168.1.20:8000" :=
  ⟨(ToString_resolution_status (fun _ _ => ⟨-2, "192.168", "80"⟩)
      ⟨[2, 0, 0x1f, 0x40, 192, 168, 1, 20, 0, 0, 0, 0, 0, 0, 0, 0], 16⟩
      ⟨[2, 0, 0x1f, 0x40, 192, 168, 1, 20, 0, 0, 0, 0, 0, 0, 0, 0], 16⟩ 2
      (by decide) (by decide) (by decide)).1 (by decide),
   (((ToString_resolution_status sampleResolver
      ⟨[2, 0, 0x1f, 0x40, 192, 168, 1, 20, 0, 0, 0, 0, 0, 0, 0, 0], 16⟩
      ⟨[2, 0, 0x1f, 0x40, 192, 168, 1, 20, 0, 0, 0, 0, 0, 0, 0, 0], 16⟩ 2
      (by decide) (by decide) (by decide)).2 (by decide)).1).trans (by decide)⟩

theorem sampleResolver_rejects : RejectsUnrecognizedFamilies sampleResolver := by
  intro sa salen f hf h1 h2 h3
  rcases sa with _ | ⟨x, _ | ⟨y, rest⟩⟩
  · exact absurd hf (by simp [SocketAddress.GetFamily, load, bind, Except.bind])
  · exact absurd hf (by simp [SocketAddress.GetFamily, load, bind, Except.bind])
  · have hf2 : x.toNat + 256 * y.toNat = f := Except.ok.inj hf
    simp only [sampleResolver, List.take_succ_cons, List.take_zero, hf2, h2, h3, false_and,
      ↓reduceIte]
    decide

/-- C8. With a resolution primitive that reports an error for the families it
does not recognize, every address whose family is none of `AF_LOCAL`, `AF_INET`,
`AF_INET6` is formatted as `"unknown"`. -/
theorem ToString_unrecognized_family (getnameinfo : List UInt8 → Nat → NameInfo)
    (hgni : RejectsUnrecognizedFamilies getnameinfo) (a : SocketAddress) (f : Nat)
    (hfam : a.GetFamily = .ok f)
    (h1 : f ≠ AF_LOCAL) (h2 : f ≠ AF_INET) (h3 : f ≠ AF_INET6) :
    ToString getnameinfo a = .ok "unknown" := by
  rw [ToString_of_unmapped getnameinfo a a f hfam h1
    (Unmapped_of_not_mapped a (IsV4Mapped_of_family_ne a f hfam h3))]
  have hret : (getnameinfo a.address a.size).ret ≠ 0 := by
    cases a with
    | mk address size => exact hgni address size f hfam h1 h2 h3
  simp only [present, hret, ne_eq, not_false_eq_true, ↓reduceIte]

/-- Instance of C8: an address of family 17 (`AF_PACKET`). -/
theorem ToString_unrecognized_family_witness :
    SocketAddress.GetFamily ⟨[17, 0, 8, 0, 2, 0, 0, 0, 1, 0, 0, 6, 1, 2, 3, 4, 5, 6, 0, 0], 20⟩
      = .ok 17
    ∧ ToString sampleResolver ⟨[17, 0, 8, 0, 2, 0, 0, 0, 1, 0, 0, 6, 1, 2, 3, 4, 5, 6, 0, 0], 20⟩
      = .ok "unknown" :=
  ⟨by decide,
   ToString_unrecognized_family sampleResolver sampleResolver_rejects
     ⟨[17, 0, 8, 0, 2, 0, 0, 0, 1, 0, 0, 6, 1, 2, 3, 4, 5, 6, 0, 0], 20⟩ 17 (by decide)
     (by decide) (by decide) (by decide)⟩

theorem ToString_returns (getnameinfo : List UInt8 → Nat → NameInfo) (a : SocketAddress)
    (hsize : 2 ≤ a.size) (hmem : a.size ≤ a.address.length)
    (h6 : a.GetFamily = .ok AF_INET6 → offsetof_sin6_addr + 12 ≤ a.address.length)
    (h6m : a.GetFamily = .ok AF_INET6 → (sin6_addr a).take 12 = v4MappedPrefix →
      offsetof_sin6_addr + 16 ≤ a.address.length) :
    ∃ s, ToString getnameinfo a = .ok s := by
  have hfam := GetFamily_eq a (by omega)
  generalize a.address[0].toNat + 256 * a.address[1].toNat = f at hfam
  by_cases hl : f = AF_LOCAL
  · subst hl
    exact ⟨_, ToString_local_eq getnameinfo a hfam hsize hmem⟩
  · by_cases hi : f = AF_INET6
    · subst hi
      by_cases hp : (sin6_addr a).take 12 = v4MappedPrefix
      · exact ⟨_, ToString_of_unmapped getnameinfo a _ AF_INET6 hfam hl
          (Unmapped_v4mapped a hfam (h6m hfam hp) (sin6_addr_take a ▸ hp))⟩
      · have hm : IsV4Mapped a = .ok false := by
          rw [IsV4Mapped_of_inet6 a hfam (h6 hfam), ← sin6_addr_take]
          simp only [hp, decide_False]
        exact ⟨_, ToString_of_unmapped getnameinfo a a AF_INET6 hfam hl
          (Unmapped_of_not_mapped a hm)⟩
    · exact ⟨_, ToString_of_unmapped getnameinfo a a f hfam hl
        (Unmapped_of_not_mapped a (IsV4Mapped_of_family_ne a f hfam hi))⟩

/-- C10 does not hold as stated: on the `AF_INET6` address of length 2 (the
family discriminator alone) the IPv4-mapped prefix test reads the byte at
offset 8, which is not below the length; on an `AF_INET6` address of length 20
that ends with the IPv4-mapped prefix the unmapping copy reads the byte at
offset 20. -/
theorem ToString_truncated_inet6_reads_past_length :
    (SocketAddress.GetFamily ⟨[10, 0], 2⟩ = .ok AF_INET6
      ∧ ToString sampleResolver ⟨[10, 0], 2⟩ = .error (Fault.invalidRead 8)
      ∧ ¬ 8 < SocketAddress.size ⟨[10, 0], 2⟩)
    ∧ (ToString sampleResolver ⟨[10, 0, 0x19, 0xc8, 0, 0, 0, 0, 0, 0, 0, 0, 0, 0, 0, 0, 0, 0,
          0xff, 0xff], 20⟩ = .error (Fault.invalidRead 20)
      ∧ ¬ 20 < SocketAddress.size ⟨[10, 0, 0x19, 0xc8, 0, 0, 0, 0, 0, 0, 0, 0, 0, 0, 0, 0, 0, 0,
          0xff, 0xff], 20⟩) := by
  decide

/-- C10, amended. Take an address whose memory ends at its length, so that a
read at an offset not below the length is an invalid read. If the length
covers the family discriminator and, for `AF_INET6`, the first 12 bytes of
`sin6_addr` (all of `sin6_addr` when they are the IPv4-mapped prefix), then
`ToString` performs no such read. -/
theorem ToString_reads_within_length (getnameinfo : List UInt8 → Nat → NameInfo)
    (a : SocketAddress) (hexact : a.address.length = a.size) (hsize : 2 ≤ a.size)
    (h6 : a.GetFamily = .ok AF_INET6 → offsetof_sin6_addr + 12 ≤ a.size)
    (h6m : a.GetFamily = .ok AF_INET6 → (sin6_addr a).take 12 = v4MappedPrefix →
      offsetof_sin6_addr + 16 ≤ a.size) :
    ∀ off, ToString getnameinfo a ≠ .error (Fault.invalidRead off) := by
  intro off he
  obtain ⟨s, hs⟩ := ToString_returns getnameinfo a hsize (by omega)
    (fun h => hexact ▸ h6 h) (fun h h2 => hexact ▸ h6m h h2)
  rw [hs] at he
  exact absurd he (by simp)

/-- Instances of the amended C10: a local address with a terminated path, and
an IPv4-mapped address of 24 bytes, which is shorter than `sockaddr_in6`. -/
theorem ToString_reads_within_length_witness :
    (∀ off, ToString sampleResolver ⟨[1, 0, 97, 98, 99, 0], 6⟩ ≠ .error (Fault.invalidRead off))
    ∧ (∀ off, ToString sampleResolver ⟨[10, 0, 0x19, 0xc8, 0, 0, 0, 0, 0, 0, 0, 0, 0, 0, 0, 0,
        0, 0, 0xff, 0xff, 127, 0, 0, 1], 24⟩ ≠ .error (Fault.invalidRead off)) :=
  ⟨ToString_reads_within_length sampleResolver ⟨[1, 0, 97, 98, 99, 0], 6⟩ (by decide)
      (by decide) (by decide) (by decide),
   ToString_reads_within_length sampleResolver ⟨[10, 0, 0x19, 0xc8, 0, 0, 0, 0, 0, 0, 0, 0, 0,
      0, 0, 0, 0, 0, 0xff, 0xff, 127, 0, 0, 1], 24⟩ (by decide) (by decide) (by decide)
      (by decide)⟩

/-- C11. For an address that is not local, when the resolution primitive
succeeds with host text `h` and service text `s`: if `h` contains a colon the
result is exactly `[h]:s`, and if it contains none the result is exactly `h:s`;
hence the result starts with `'['` only if `h` contains a colon or itself
starts with `'['`. -/
theorem ToString_presentation (getnameinfo : List UInt8 → Nat → NameInfo)
    (a b : SocketAddress) (f : Nat) (h s : String)
    (hfam : a.GetFamily = .ok f) (hne : f ≠ AF_LOCAL) (hu : Unmapped a = .ok b)
    (hres : getnameinfo b.address b.size = ⟨0, h, s⟩) :
    (':' ∈ h.data → ToString getnameinfo a = .ok ("[" ++ h ++ "]:" ++ s))
    ∧ (':' ∉ h.data → ToString getnameinfo a = .ok (h ++ ":" ++ s))
    ∧ (∀ r, ToString getnameinfo a = .ok r → r.data.head? = some '[' →
        ':' ∈ h.data ∨ h.data.head? = some '[') := by
  rw [ToString_of_unmapped getnameinfo a b f hfam hne hu, hres]
  refine ⟨fun hc => ?_, fun hc => ?_, fun r hr hb => ?_⟩
  · simp only [present, ne_eq, not_true_eq_false, ↓reduceIte, hc]
  · simp only [present, ne_eq, not_true_eq_false, ↓reduceIte, hc]
  · by_cases hc : ':' ∈ h.data
    · exact Or.inl hc
    · right
      have hr2 : r = h ++ ":" ++ s := by
        rw [← Except.ok.inj hr]
        simp only [present, ne_eq, not_true_eq_false, ↓reduceIte, hc]
      rw [hr2] at hb
      simp only [String.data_append] at hb
      cases hd : h.data with
      | nil =>
        rw [hd] at hb
        simp at hb
      | cons c cs =>
        rw [hd] at hb
        simpa using hb

/-- Instances of C11: a host with a colon is bracketed, a host without one is
not. -/
theorem ToString_presentation_witness :
    ToString sampleResolver ⟨[10, 0, 0x19, 0xc8, 0, 0, 0, 0, 0x20, 0x01, 0x0d, 0xb8, 0, 1, 0, 2,
        0, 3, 0, 4, 0, 5, 0, 6, 0, 0, 0, 0], 28⟩
      = .ok "[2001:db8:1:2:3:4:5:6]:6600"
    ∧ ToString sampleResolver ⟨[2, 0, 0x1f, 0x40, 192, 168, 1, 20, 0, 0, 0, 0, 0, 0, 0, 0], 16⟩
      = .ok "192.168.1.20:8000" :=
  ⟨(ToString_presentation sampleResolver
      ⟨[10, 0, 0x19, 0xc8, 0, 0, 0, 0, 0x20, 0x01, 0x0d, 0xb8, 0, 1, 0, 2,
        0, 3, 0, 4, 0, 5, 0, 6, 0, 0, 0, 0], 28⟩
      ⟨[10, 0, 0x19, 0xc8, 0, 0, 0, 0, 0x20, 0x01, 0x0d, 0xb8, 0, 1, 0, 2,
        0, 3, 0, 4, 0, 5, 0, 6, 0, 0, 0, 0], 28⟩ 10 "2001:db8:1:2:3:4:5:6" "6600"
      (by decide) (by decide) (by decide) (by decide)).1 (by decide),
   (ToString_presentation sampleResolver
      ⟨[2, 0, 0x1f, 0x40, 192, 168, 1, 20, 0, 0, 0, 0, 0, 0, 0, 0], 16⟩
      ⟨[2, 0, 0x1f, 0x40, 192, 168, 1, 20, 0, 0, 0, 0, 0, 0, 0, 0], 16⟩ 2 "192.168.1.20" "8000"
      (by decide) (by decide) (by decide) (by decide)).2.1 (by decide)⟩

/-- C18. `ToString` is not injective on local addresses: the payloads `"a\0b"`
and `"a@b"` are both formatted as `"a@b"`, the payloads `"abc"` and `"abc\0"`
both as `"abc"`, and the empty payload and the payload `"local"` both as
`"local"`. -/
theorem ToString_local_not_injective :
    (sun_path ⟨[1, 0, 97, 0, 98], 5⟩ ≠ sun_path ⟨[1, 0, 97, 64, 98], 5⟩
      ∧ ToString sampleResolver ⟨[1, 0, 97, 0, 98], 5⟩ = .ok "a@b"
      ∧ ToString sampleResolver ⟨[1, 0, 97, 64, 98], 5⟩ = .ok "a@b")
    ∧ (sun_path ⟨[1, 0, 97, 98, 99], 5⟩ ≠ sun_path ⟨[1, 0, 97, 98, 99, 0], 6⟩
      ∧ ToString sampleResolver ⟨[1, 0, 97, 98, 99], 5⟩ = .ok "abc"
      ∧ ToString sampleResolver ⟨[1, 0, 97, 98, 99, 0], 6⟩ = .ok "abc")
    ∧ (sun_path ⟨[1, 0], 2⟩ ≠ sun_path ⟨[1, 0, 108, 111, 99, 97, 108], 7⟩
      ∧ ToString sampleResolver ⟨[1, 0], 2⟩ = .ok "local"
      ∧ ToString sampleResolver ⟨[1, 0, 108, 111, 99, 97, 108], 7⟩ = .ok "local")
    ∧ ¬ (∀ a b : SocketAddress,
          a.GetFamily = .ok AF_LOCAL → b.GetFamily = .ok AF_LOCAL →
          offsetof_sun_path ≤ a.size → a.size ≤ a.address.length →
          offsetof_sun_path ≤ b.size → b.size ≤ b.address.length →
          ToString sampleResolver a = ToString sampleResolver b → sun_path a = sun_path b) := by
  refine ⟨by decide, by decide, by decide, fun h => ?_⟩
  exact absurd (h ⟨[1, 0, 97, 0, 98], 5⟩ ⟨[1, 0, 97, 64, 98], 5⟩ (by decide) (by decide)
    (by decide) (by decide) (by decide) (by decide) (by decide)) (by decide)

theorem loadBytes_short (mem : List UInt8) (n off : Nat) (hn : 0 < n)
    (h : mem.length < off + n) : ∃ e, loadBytes mem off n = .error e := by
  induction n generalizing off with
  | zero => omega
  | succ n ih =>
    by_cases h1 : off < mem.length
    · obtain ⟨e, he⟩ := ih (off + 1) (by omega) (by omega)
      exact ⟨e, by rw [loadBytes, load_eq mem off h1, he]⟩
    · exact ⟨_, by rw [loadBytes, load_invalid mem off (by omega)]⟩

theorem IN6_IS_ADDR_V4MAPPED_true (mem : List UInt8) (a : Nat)
    (h : IN6_IS_ADDR_V4MAPPED mem a = .ok true) :
    (mem.drop a).take 12 = v4MappedPrefix := by
  by_cases hlen : a + 12 ≤ mem.length
  · rw [IN6_IS_ADDR_V4MAPPED_eq mem a hlen] at h
    exact of_decide_eq_true (Except.ok.inj h)
  · exfalso
    obtain ⟨e, he⟩ := loadBytes_short mem 4 (a + 8) (by omega) (by omega)
    unfold IN6_IS_ADDR_V4MAPPED at h
    rw [he] at h
    cases h0 : loadBytes mem a 4 with
    | error e0 => rw [h0] at h; exact absurd h (by simp [bind, Except.bind])
    | ok w0 =>
      rw [h0] at h
      cases h1 : loadBytes mem (a + 4) 4 with
      | error e1 =>
        rw [h1] at h
        by_cases hz : w0 = [0, 0, 0, 0]
        · simp [hz, bind, Except.bind, pure, Except.pure] at h
        · simp [hz, bind, Except.bind, pure, Except.pure] at h
      | ok w1 =>
        rw [h1] at h
        by_cases hz : w0 = [0, 0, 0, 0]
        · by_cases hz1 : w1 = [0, 0, 0, 0]
          · simp [hz, hz1, bind, Except.bind, pure, Except.pure] at h
          · simp [hz, hz1, bind, Except.bind, pure, Except.pure] at h
        · simp [hz, bind, Except.bind, pure, Except.pure] at h

theorem IsV4Mapped_true_iff (a : SocketAddress) :
    IsV4Mapped a = .ok true
      ↔ a.GetFamily = .ok AF_INET6 ∧ (sin6_addr a).take 12 = v4MappedPrefix := by
  rw [sin6_addr_take]
  constructor
  · intro h
    unfold IsV4Mapped at h
    cases hf : a.GetFamily with
    | error e => rw [hf] at h; exact absurd h (by simp [bind, Except.bind])
    | ok f =>
      rw [hf] at h
      by_cases h6 : f = AF_INET6
      · subst h6
        simp only [ok_bind, ne_eq, not_true_eq_false, ↓reduceIte, SocketAddress.GetAddress] at h
        exact ⟨rfl, IN6_IS_ADDR_V4MAPPED_true _ _ h⟩
      · simp [h6, bind, Except.bind, pure, Except.pure] at h
  · rintro ⟨hf, hp⟩
    have hl : ((a.address.drop offsetof_sin6_addr).take 12).length = 12 := by rw [hp]; rfl
    have hlen : offsetof_sin6_addr + 12 ≤ a.address.length := by
      simp only [List.length_take, List.length_drop] at hl
      omega
    rw [IsV4Mapped_of_inet6 a hf hlen, hp]
    rfl

/-- C13. `IsV4Mapped` returns true exactly when the family is `AF_INET6` and
`sin6_addr` starts with ten zero bytes followed by two bytes `0xff`. Hence an
address of another family is never unmapped, and an `AF_INET6` address without
that prefix goes to the resolution primitive as it is, in its IPv6 form. -/
theorem IsV4Mapped_exactly (getnameinfo : List UInt8 → Nat → NameInfo)
    (a : SocketAddress) :
    (IsV4Mapped a = .ok true
      ↔ a.GetFamily = .ok AF_INET6
        ∧ (sin6_addr a).take 12 = [0, 0, 0, 0, 0, 0, 0, 0, 0, 0, 0xff, 0xff])
    ∧ (∀ f, a.GetFamily = .ok f → f ≠ AF_INET6 →
        IsV4Mapped a = .ok false ∧ Unmapped a = .ok a)
    ∧ (a.GetFamily = .ok AF_INET6 → offsetof_sin6_addr + 12 ≤ a.address.length →
        (sin6_addr a).take 12 ≠ [0, 0, 0, 0, 0, 0, 0, 0, 0, 0, 0xff, 0xff] →
        IsV4Mapped a = .ok false ∧ Unmapped a = .ok a
        ∧ ToString getnameinfo a = .ok (present (getnameinfo a.address a.size))) := by
  refine ⟨IsV4Mapped_true_iff a, fun f hf hne => ?_, fun hf hlen hnot => ?_⟩
  · have hm := IsV4Mapped_of_family_ne a f hf hne
    exact ⟨hm, Unmapped_of_not_mapped a hm⟩
  · have hm : IsV4Mapped a = .ok false := by
      rw [IsV4Mapped_of_inet6 a hf hlen, ← sin6_addr_take]
      have : ¬ (sin6_addr a).take 12 = v4MappedPrefix := hnot
      simp only [this, decide_False]
    exact ⟨hm, Unmapped_of_not_mapped a hm,
      ToString_of_unmapped getnameinfo a a AF_INET6 hf (by decide) (Unmapped_of_not_mapped a hm)⟩

/-- Instances of C13: `::ffff:127.0.0.1` is mapped; an `AF_INET` address with
the same bytes is not; `::1` and the IPv4-compatible `::1.2.3.4` are not, and
`::1` is formatted in the bracketed form. -/
theorem IsV4Mapped_exactly_witness :
    IsV4Mapped ⟨[10, 0, 0x19, 0xc8, 0, 0, 0, 0, 0, 0, 0, 0, 0, 0, 0, 0, 0, 0, 0xff, 0xff,
        127, 0, 0, 1, 0, 0, 0, 0], 28⟩ = .ok true
    ∧ IsV4Mapped ⟨[2, 0, 0x19, 0xc8, 0, 0, 0, 0, 0, 0, 0, 0, 0, 0, 0, 0, 0, 0, 0xff, 0xff,
        127, 0, 0, 1, 0, 0, 0, 0], 28⟩ = .ok false
    ∧ IsV4Mapped ⟨[10, 0, 0x19, 0xc8, 0, 0, 0, 0, 0, 0, 0, 0, 0, 0, 0, 0, 0, 0, 0, 0,
        1, 2, 3, 4, 0, 0, 0, 0], 28⟩ = .ok false
    ∧ ToString (fun _ _ => ⟨0, "::1", "6600"⟩) ⟨[10, 0, 0x19, 0xc8, 0, 0, 0, 0, 0, 0, 0, 0, 0,
        0, 0, 0, 0, 0, 0, 0, 0, 0, 0, 1, 0, 0, 0, 0], 28⟩ = .ok "[::1]:6600" :=
  ⟨(IsV4Mapped_exactly sampleResolver ⟨[10, 0, 0x19, 0xc8, 0, 0, 0, 0, 0, 0, 0, 0, 0,
      0, 0, 0, 0, 0, 0xff, 0xff, 127, 0, 0, 1, 0, 0, 0, 0], 28⟩).1.2 (by decide),
   ((IsV4Mapped_exactly sampleResolver ⟨[2, 0, 0x19, 0xc8, 0, 0, 0, 0, 0, 0, 0, 0, 0,
      0, 0, 0, 0, 0, 0xff, 0xff, 127, 0, 0, 1, 0, 0, 0, 0], 28⟩).2.1 2 (by decide)
      (by decide)).1,
   ((IsV4Mapped_exactly sampleResolver ⟨[10, 0, 0x19, 0xc8, 0, 0, 0, 0, 0, 0, 0, 0, 0,
      0, 0, 0, 0, 0, 0, 0, 1, 2, 3, 4, 0, 0, 0, 0], 28⟩).2.2 (by decide) (by decide)
      (by decide)).1,
   ((IsV4Mapped_exactly (fun _ _ => ⟨0, "::1", "6600"⟩) ⟨[10, 0, 0x19, 0xc8, 0, 0, 0,
      0, 0, 0, 0, 0, 0, 0, 0, 0, 0, 0, 0, 0, 0, 0, 0, 1, 0, 0, 0, 0], 28⟩).2.2 (by decide)
      (by decide) (by decide)).2.2.trans (by decide)⟩

theorem sockaddr_in_fields (P A : List UInt8) (hP : P.length = 2) (hA : A.length = 4) :
    (sockaddr_in P A).length = sizeof_sockaddr_in
    ∧ ((sockaddr_in P A).drop offsetof_sin_port).take 2 = P
    ∧ ((sockaddr_in P A).drop offsetof_sin_addr).take 4 = A
    ∧ (sockaddr_in P A).drop 8 = List.replicate 8 0 := by
  obtain ⟨p0, p1, rfl⟩ := List.length_eq_two.1 hP
  rcases A with _ | ⟨a0, _ | ⟨a1, _ | ⟨a2, _ | ⟨a3, _ | ⟨a4, A⟩⟩⟩⟩⟩ <;> simp at hA
  exact ⟨rfl, rfl, rfl, rfl⟩

/-- C14. For an IPv4-mapped IPv6 address `a`, `UnmapV4` produces an address of
size `sizeof(struct sockaddr_in)` whose family is `AF_INET`, whose port bytes
are the port bytes of `a`, whose four address bytes are bytes 12..15 of the
`sin6_addr` of `a`, and whose remaining bytes are zero. (`a` is a value of the
embedding and is not written to.) -/
theorem UnmapV4_layout (a : SocketAddress)
    (hfam : a.GetFamily = .ok AF_INET6)
    (hlen : offsetof_sin6_addr + 16 ≤ a.address.length)
    (hmapped : (sin6_addr a).take 12 = v4MappedPrefix) :
    ∃ b, UnmapV4 a = .ok b
      ∧ b.size = sizeof_sockaddr_in
      ∧ b.address.length = sizeof_sockaddr_in
      ∧ b.GetFamily = .ok AF_INET
      ∧ sin_port b = sin6_port a
      ∧ sin_addr b = (sin6_addr a).drop 12
      ∧ b.address.drop 8 = List.replicate 8 0 := by
  have hm : IsV4Mapped a = .ok true := (IsV4Mapped_true_iff a).2 ⟨hfam, hmapped⟩
  have hlen2 : 24 ≤ a.address.length := hlen
  have hP : (sin6_port a).length = 2 := by
    simp [sin6_port, offsetof_sin6_port]; omega
  have hA : ((sin6_addr a).drop 12).length = 4 := by
    simp [sin6_addr, offsetof_sin6_addr]; omega
  obtain ⟨f1, f2, f3, f4⟩ := sockaddr_in_fields (sin6_port a) ((sin6_addr a).drop 12) hP hA
  refine ⟨⟨sockaddr_in (sin6_port a) ((sin6_addr a).drop 12), sizeof_sockaddr_in⟩, ?_, rfl, f1,
    GetFamily_sockaddr_in _ _ _, f2, f3, f4⟩
  rw [UnmapV4_eq a hm hlen, sin6_addr_drop]
  rfl

/-- Instance of C14: `::ffff:127.0.0.1` with port 6600. -/
theorem UnmapV4_layout_witness :
    UnmapV4 ⟨[10, 0, 0x19, 0xc8, 0, 0, 0, 0, 0, 0, 0, 0, 0, 0, 0, 0, 0, 0, 0xff, 0xff,
        127, 0, 0, 1, 0, 0, 0, 0], 28⟩
      = .ok ⟨[2, 0, 0x19, 0xc8, 127, 0, 0, 1, 0, 0, 0, 0, 0, 0, 0, 0], 16⟩
    ∧ ∃ b, UnmapV4 ⟨[10, 0, 0x19, 0xc8, 0, 0, 0, 0, 0, 0, 0, 0, 0, 0, 0, 0, 0, 0, 0xff, 0xff,
        127, 0, 0, 1, 0, 0, 0, 0], 28⟩ = .ok b
      ∧ b.size = sizeof_sockaddr_in
      ∧ b.address.length = sizeof_sockaddr_in
      ∧ b.GetFamily = .ok AF_INET
      ∧ sin_port b = [0x19, 0xc8]
      ∧ sin_addr b = [127, 0, 0, 1]
      ∧ b.address.drop 8 = List.replicate 8 0 :=
  ⟨by decide,
   UnmapV4_layout ⟨[10, 0, 0x19, 0xc8, 0, 0, 0, 0, 0, 0, 0, 0, 0, 0, 0, 0, 0, 0, 0xff, 0xff,
      127, 0, 0, 1, 0, 0, 0, 0], 28⟩ (by decide) (by decide) (by decide)⟩

/-- C12 does not hold as stated: the `AF_INET6` address of length 4 satisfies
the invariant (its length covers the family discriminator), yet no string is
returned for it: the IPv4-mapped prefix test reads past the end of its
memory. -/
theorem ToString_truncated_inet6_no_result :
    sizeof_sa_family ≤ SocketAddress.size ⟨[10, 0, 0x19, 0xc8], 4⟩
    ∧ SocketAddress.size ⟨[10, 0, 0x19, 0xc8], 4⟩ ≤ [10, 0, 0x19, 0xc8].length
    ∧ ¬ ∃ s, ToString sampleResolver ⟨[10, 0, 0x19, 0xc8], 4⟩ = .ok s := by
  refine ⟨by decide, by decide, ?_⟩
  rintro ⟨s, hs⟩
  have h : ToString sampleResolver ⟨[10, 0, 0x19, 0xc8], 4⟩ = .error (Fault.invalidRead 8) := by
    decide
  rw [h] at hs
  exact absurd hs (by simp)

/-- C12, amended. `ToString` returns a string for every address whose length
covers the family discriminator and lies within its memory, provided that for
`AF_INET6` the memory covers the first 12 bytes of `sin6_addr` (all of
`sin6_addr` when they are the IPv4-mapped prefix). In particular, for
`AF_LOCAL` the assertion `size >= prefix_size` holds and a string is
returned. -/
theorem ToString_total (getnameinfo : List UInt8 → Nat → NameInfo) (a : SocketAddress)
    (hsize : sizeof_sa_family ≤ a.size) (hmem : a.size ≤ a.address.length)
    (h6 : a.GetFamily = .ok AF_INET6 → offsetof_sin6_addr + 12 ≤ a.address.length)
    (h6m : a.GetFamily = .ok AF_INET6 → (sin6_addr a).take 12 = v4MappedPrefix →
      offsetof_sin6_addr + 16 ≤ a.address.length) :
    (∃ s, ToString getnameinfo a = .ok s)
    ∧ (a.GetFamily = .ok AF_LOCAL →
        offsetof_sun_path ≤ a.size
        ∧ LocalAddressToString a.address a.size ≠ .error Fault.assertion
        ∧ ∃ s, LocalAddressToString a.address a.size = .ok s ∧ ToString getnameinfo a = .ok s)
    := by
  refine ⟨ToString_returns getnameinfo a hsize hmem h6 h6m, fun hf => ?_⟩
  have hl := LocalAddressToString_eq a.address a.size hsize hmem
  refine ⟨hsize, ?_, _, hl, ?_⟩
  · rw [hl]; simp
  · rw [ToString_of_local getnameinfo a hf, hl]

/-- Instances of the amended C12: a local address that consists of the family
discriminator alone, and an IPv4 address. -/
theorem ToString_total_witness :
    (∃ s, ToString sampleResolver ⟨[1, 0], 2⟩ = .ok s)
    ∧ (∃ s, ToString sampleResolver
        ⟨[2, 0, 0x1f, 0x40, 192, 168, 1, 20, 0, 0, 0, 0, 0, 0, 0, 0], 16⟩ = .ok s) :=
  ⟨(ToString_total sampleResolver ⟨[1, 0], 2⟩ (by decide) (by decide) (by decide)
      (by decide)).1,
   (ToString_total sampleResolver
      ⟨[2, 0, 0x1f, 0x40, 192, 168, 1, 20, 0, 0, 0, 0, 0, 0, 0, 0], 16⟩ (by decide) (by decide)
      (by decide) (by decide)).1⟩

theorem atSubstitute_length (p : List UInt8) : (atSubstitute p).length = p.length := by
  simp [atSubstitute, String.length]

theorem formatLocal_of_ne (p : List UInt8) (h : formatLocal p ≠ "local") :
    dropTerminator p ≠ [] ∧ formatLocal p = atSubstitute (dropTerminator p) := by
  unfold formatLocal at h ⊢
  by_cases hd : dropTerminator p = []
  · rw [if_pos hd] at h; exact absurd rfl h
  · exact ⟨hd, by rw [if_neg hd]⟩

/-- C15. At most one trailing zero byte is dropped from a local path payload.
When the payload ends in two zero bytes the result is one character shorter
than the payload and ends in `'@'`; and whenever the result is not `"local"`,
its length is the payload length minus one if the last payload byte is zero,
and the payload length otherwise. -/
theorem ToString_local_one_terminator (getnameinfo : List UInt8 → Nat → NameInfo)
    (a : SocketAddress)
    (hfam : a.GetFamily = .ok AF_LOCAL) (hsize : offsetof_sun_path ≤ a.size)
    (hmem : a.size ≤ a.address.length) :
    (∀ q, sun_path a = q ++ [0, 0] →
      ∃ r, ToString getnameinfo a = .ok r ∧ r.length = (sun_path a).length - 1
        ∧ r.data.getLast? = some '@')
    ∧ (∀ r, ToString getnameinfo a = .ok r → r ≠ "local" →
        r.length = if (sun_path a).getLast? = some 0 then (sun_path a).length - 1
                   else (sun_path a).length) := by
  rw [ToString_local_eq getnameinfo a hfam hsize hmem]
  refine ⟨fun q hq => ?_, fun r hr hne => ?_⟩
  · have hd : dropTerminator (sun_path a) = q ++ [0] := by
      rw [hq]
      have e : q ++ [0, 0] = (q ++ [0]) ++ [0] := by simp
      rw [e]
      simp [dropTerminator]
    have hf : formatLocal (sun_path a) = atSubstitute (q ++ [0]) := by
      simp only [formatLocal, hd]
      simp
    refine ⟨_, rfl, ?_, ?_⟩
    · rw [hf, atSubstitute_length, hq]
      simp
    · rw [hf]
      simp [atSubstitute]
  · have hr2 : formatLocal (sun_path a) = r := Except.ok.inj hr
    subst hr2
    obtain ⟨_, he⟩ := formatLocal_of_ne _ hne
    rw [he, atSubstitute_length]
    unfold dropTerminator
    split <;> simp

/-- Instances of C15: `"abc\0\0"` is formatted as `"abc@"` and `"\0\0"` as
`"@"`. -/
theorem ToString_local_one_terminator_witness :
    ToString sampleResolver ⟨[1, 0, 97, 98, 99, 0, 0], 7⟩ = .ok "abc@"
    ∧ ToString sampleResolver ⟨[1, 0, 0, 0], 4⟩ = .ok "@"
    ∧ ∃ r, ToString sampleResolver ⟨[1, 0, 0, 0], 4⟩ = .ok r
        ∧ r.length = (sun_path ⟨[1, 0, 0, 0], 4⟩).length - 1 ∧ r.data.getLast? = some '@' :=
  ⟨by decide, by decide,
   (ToString_local_one_terminator sampleResolver ⟨[1, 0, 0, 0], 4⟩ (by decide) (by decide)
      (by decide)).1 [] (by decide)⟩

theorem mem_dropTerminator (p : List UInt8) (b : UInt8) (h : b ∈ dropTerminator p) : b ∈ p := by
  unfold dropTerminator at h
  split at h
  · exact List.mem_of_mem_dropLast h
  · exact h

theorem atSubstitute_chars (d : List UInt8) (c : Char) (hc : c ∈ (atSubstitute d).data) :
    c ≠ '\x00' ∧ (c = '@' ∨ ∃ b ∈ d, b ≠ 0 ∧ c = toChar b) := by
  simp only [atSubstitute, List.mem_map] at hc
  obtain ⟨b, hb, rfl⟩ := hc
  by_cases hz : b = 0
  · rw [if_pos hz]
    exact ⟨by decide, Or.inl rfl⟩
  · rw [if_neg hz]
    exact ⟨fun h0 => hz ((toChar_eq_zero b).1 h0), Or.inr ⟨b, hb, hz, rfl⟩⟩

/-- C17. The string returned for a local address whose size covers the
`sun_path` offset contains no zero character: it is `"local"`, or each of its
characters is `'@'` or a non-zero byte of the payload. -/
theorem ToString_local_no_nul (getnameinfo : List UInt8 → Nat → NameInfo) (a : SocketAddress)
    (hfam : a.GetFamily = .ok AF_LOCAL) (hsize : offsetof_sun_path ≤ a.size)
    (hmem : a.size ≤ a.address.length) :
    ∃ r, ToString getnameinfo a = .ok r ∧ '\x00' ∉ r.data
      ∧ (r = "local" ∨ ∀ c ∈ r.data, c = '@' ∨ ∃ b ∈ sun_path a, b ≠ 0 ∧ c = toChar b) := by
  refine ⟨_, ToString_local_eq getnameinfo a hfam hsize hmem, ?_, ?_⟩
  · unfold formatLocal
    split
    · decide
    · exact fun h => (atSubstitute_chars _ _ h).1 rfl
  · unfold formatLocal
    split
    · exact Or.inl rfl
    · right
      intro c hc
      rcases (atSubstitute_chars _ _ hc).2 with h | ⟨b, hb, hz, he⟩
      · exact Or.inl h
      · exact Or.inr ⟨b, mem_dropTerminator _ _ hb, hz, he⟩

/-- Instance of C17: the abstract address `"\0mpd\0x"` is formatted as
`"@mpd@x"`. -/
theorem ToString_local_no_nul_witness :
    ToString sampleResolver ⟨[1, 0, 0, 109, 112, 100, 0, 120], 8⟩ = .ok "@mpd@x"
    ∧ ∃ r, ToString sampleResolver ⟨[1, 0, 0, 109, 112, 100, 0, 120], 8⟩ = .ok r
      ∧ '\x00' ∉ r.data
      ∧ (r = "local" ∨ ∀ c ∈ r.data, c = '@'
          ∨ ∃ b ∈ sun_path ⟨[1, 0, 0, 109, 112, 100, 0, 120], 8⟩, b ≠ 0 ∧ c = toChar b) :=
  ⟨by decide,
   ToString_local_no_nul sampleResolver ⟨[1, 0, 0, 109, 112, 100, 0, 120], 8⟩ (by decide)
     (by decide) (by decide)⟩

theorem formatLocal_length_pos (p : List UInt8) : 0 < (formatLocal p).length := by
  unfold formatLocal
  split
  · decide
  · rename_i h
    rw [atSubstitute_length]
    exact List.length_pos.2 h

theorem LocalAddressToString_length_pos (s_un : List UInt8) (size : Nat) (r : String)
    (h : LocalAddressToString s_un size = .ok r) : 0 < r.length := by
  by_cases h1 : 2 ≤ size
  · by_cases h2 : size ≤ s_un.length
    · rw [LocalAddressToString_eq s_un size h1 h2] at h
      rw [← Except.ok.inj h]
      exact formatLocal_length_pos _
    · unfold LocalAddressToString at h
      simp only [offsetof_sun_path, ge_iff_le, h1, not_true_eq_false, ↓reduceIte, pure_bind,
        gt_iff_lt, tsub_pos_iff_lt] at h
      by_cases hs : 2 < size
      · rw [if_pos hs, load_invalid s_un _ (by omega)] at h
        exact absurd h (by simp [bind, Except.bind])
      · have h0 : size - 2 = 0 := by omega
        rw [if_neg hs] at h
        simp only [h0, ↓reduceIte] at h
        rw [← Except.ok.inj h]
        decide
  · unfold LocalAddressToString at h
    have : ¬ size ≥ offsetof_sun_path := by simp only [offsetof_sun_path]; omega
    simp only [this, not_false_eq_true, ↓reduceIte] at h
    exact absurd h (by simp [bind, Except.bind, throw, throwThe, MonadExceptOf.throw])

theorem ToString_of_family_error (getnameinfo : List UInt8 → Nat → NameInfo)
    (a : SocketAddress) (e : Fault) (hfam : a.GetFamily = .error e) :
    ToString getnameinfo a = .error e := by
  unfold ToString
  rw [hfam]
  rfl

theorem ToString_of_unmapped_error (getnameinfo : List UInt8 → Nat → NameInfo)
    (a : SocketAddress) (f : Nat) (e : Fault) (hfam : a.GetFamily = .ok f) (hne : f ≠ AF_LOCAL)
    (hu : Unmapped a = .error e) :
    ToString getnameinfo a = .error e := by
  unfold ToString
  rw [hfam]
  simp only [ok_bind, hne, ↓reduceIte, pure_bind]
  unfold Unmapped at hu
  cases hm : IsV4Mapped a with
  | error e1 =>
    rw [hm] at hu
    rw [← Except.error.inj hu]
    rfl
  | ok m =>
    rw [hm] at hu
    cases m with
    | false => exact absurd hu (by simp [bind, Except.bind, pure, Except.pure])
    | true =>
      have hb : UnmapV4 a = .error e := hu
      simp only [ok_bind, ↓reduceIte, hb]
      rfl

theorem present_colon (r : NameInfo) (h : r.ret = 0) : ':' ∈ (present r).data := by
  by_cases h2 : ':' ∈ r.host.data
  · simp [present, h, h2]
  · simp [present, h, h2]

/-- C16. Every string that `ToString` returns is non-empty. For an address that
is not local, with `b` the address handed to the resolution primitive, a failed
resolution yields `"unknown"` and a successful one a string that contains
`':'`. -/
theorem ToString_nonempty (getnameinfo : List UInt8 → Nat → NameInfo) (a : SocketAddress)
    (r : String) (h : ToString getnameinfo a = .ok r) :
    0 < r.length ∧ r ≠ ""
    ∧ (∀ f b, a.GetFamily = .ok f → f ≠ AF_LOCAL → Unmapped a = .ok b →
        ((getnameinfo b.address b.size).ret ≠ 0 → r = "unknown")
        ∧ ((getnameinfo b.address b.size).ret = 0 → ':' ∈ r.data)) := by
  have hpos : 0 < r.length := by
    cases hf : a.GetFamily with
    | error e =>
      rw [ToString_of_family_error getnameinfo a e hf] at h
      exact absurd h (by simp)
    | ok f =>
      by_cases hl : f = AF_LOCAL
      · subst hl
        rw [ToString_of_local getnameinfo a hf] at h
        exact LocalAddressToString_length_pos _ _ _ h
      · cases hu : Unmapped a with
        | error e =>
          rw [ToString_of_unmapped_error getnameinfo a f e hf hl hu] at h
          exact absurd h (by simp)
        | ok b =>
          rw [ToString_of_unmapped getnameinfo a b f hf hl hu] at h
          rw [← Except.ok.inj h]
          by_cases hr : (getnameinfo b.address b.size).ret = 0
          · exact List.length_pos_of_mem (present_colon _ hr)
          · simp only [present, ne_eq, hr, not_false_eq_true, ↓reduceIte]
            decide
  refine ⟨hpos, ?_, fun f b hf hl hu => ?_⟩
  · intro he
    rw [he] at hpos
    exact absurd hpos (by decide)
  · rw [ToString_of_unmapped getnameinfo a b f hf hl hu] at h
    rw [← Except.ok.inj h]
    refine ⟨fun hr => ?_, fun hr => present_colon _ hr⟩
    simp only [present, ne_eq, hr, not_false_eq_true, ↓reduceIte]

/-- Instances of C16: a local address, an address of an unrecognized family
and an IPv4 address. -/
theorem ToString_nonempty_witness :
    (ToString sampleResolver ⟨[1, 0], 2⟩ = .ok "local" ∧ 0 < "local".length)
    ∧ (ToString sampleResolver ⟨[17, 0, 8, 0], 4⟩ = .ok "unknown" ∧ 0 < "unknown".length)
    ∧ (ToString sampleResolver ⟨[2, 0, 0x1f, 0x40, 192, 168, 1, 20, 0, 0, 0, 0, 0, 0, 0, 0], 16⟩
        = .ok "192.168.1.20:8000" ∧ 0 < "192.168.1.20:8000".length) :=
  ⟨⟨by decide, (ToString_nonempty sampleResolver ⟨[1, 0], 2⟩ "local" (by decide)).1⟩,
   ⟨by decide, (ToString_nonempty sampleResolver ⟨[17, 0, 8, 0], 4⟩ "unknown" (by decide)).1⟩,
   ⟨by decide, (ToString_nonempty sampleResolver
      ⟨[2, 0, 0x1f, 0x40, 192, 168, 1, 20, 0, 0, 0, 0, 0, 0, 0, 0], 16⟩ "192.168.1.20:8000"
      (by decide)).1⟩⟩

end Net
